import Mathlib

/-!
Verification of the news-classification service in `app/server.py`.

The service wraps a pretrained sklearn pipeline (sentence-transformer
featurizer followed by a serialized probabilistic classifier) behind two
HTTP endpoints, `POST /predict` and `GET /`.  The glue code under
`src/app/server.py` is embedded shallowly below: Python dicts become
insertion-ordered association lists, Python exceptions become
`Except String`, float arithmetic becomes exact `ℚ` arithmetic, and the
two reads of the monotonic clock plus the wall-clock timestamp become an
explicit `RequestEnv`.  The pretrained model artifact itself
(`data/news_classifier.joblib` together with the sentence-transformer
weights) is opaque data, not source code; it is represented by an
abstract `InferencePipeline` record, and the contract the spec states for
it is captured by the `ValidModel` predicate.
-/

namespace NewsService

/-- Request schema `PredictRequest` (server.py lines 30-34): four required
string fields. -/
structure PredictRequest where
  source : String
  url : String
  title : String
  description : String
deriving DecidableEq, Repr

/-- Response schema `PredictResponse` (server.py lines 37-39): a scores
dict (modelled as an insertion-ordered association list, the order of a
Python dict) and a label. -/
structure PredictResponse where
  scores : List (String × ℚ)
  label : String
deriving DecidableEq, Repr

/-- One step of Python `dict` construction: inserting key `k` with value
`v` updates the value in place when `k` is already present and appends
`(k, v)` otherwise (Python dicts preserve first-insertion order). -/
def dictInsert {α : Type} (d : List (String × α)) (k : String) (v : α) :
    List (String × α) :=
  if d.any (fun p => p.1 == k) then
    d.map (fun p => if p.1 == k then (k, v) else p)
  else d ++ [(k, v)]

/-- Python `dict(pairs)`: fold the pairs into an empty dict. -/
def pyDict {α : Type} (l : List (String × α)) : List (String × α) :=
  l.foldl (fun d p => dictInsert d p.1 p.2) []

/-- The inference pipeline assembled in `NewsCategoryClassifier.__init__`
(server.py lines 59-83).  `classes_` is the fitted classifier's label
list, `encode` is `SentenceTransformer.encode` on one document (it may
raise, hence `Except`), and `classifierProba` / `classifierPredict` are
the serialized classifier's per-row `predict_proba` / `predict` on one
feature vector (they may also raise).  All three are functions: per the
spec the artifact has no mutable state after load, so inference is a
pure read. -/
structure InferencePipeline where
  classes_ : List String
  encode : String → Except String (List ℚ)
  classifierProba : List ℚ → Except String (List ℚ)
  classifierPredict : List ℚ → Except String String

/-- Left-to-right effectful map over `Except`: the first raised exception
aborts the remaining calls, exactly like a Python `for` loop. -/
def exMap {α β : Type} (f : α → Except String β) : List α → Except String (List β)
  | [] => .ok []
  | a :: l =>
    match f a with
    | .error e => .error e
    | .ok b =>
      match exMap f l with
      | .error e => .error e
      | .ok bs => .ok (b :: bs)

/-- `TransformerFeaturizer.transform` (server.py lines 52-56): encode each
document in order, propagating any exception from `encode`. -/
def transform (clf : InferencePipeline) (X : List String) :
    Except String (List (List ℚ)) :=
  exMap clf.encode X

/-- Modelled from the spec: `sklearn.pipeline.Pipeline.predict_proba` is
library code not under `src/`; per the spec the pipeline "composes
featurizer → classifier" ("Internally: featurize then classify"), so on a
batch it featurizes every document and then applies the classifier's
`predict_proba` row by row. -/
def pipeline_predict_proba (clf : InferencePipeline) (X : List String) :
    Except String (List (List ℚ)) :=
  match transform clf X with
  | .error e => .error e
  | .ok xt => exMap clf.classifierProba xt

/-- Modelled from the spec: `sklearn.pipeline.Pipeline.predict` is library
code not under `src/`; as above it featurizes then applies the
classifier's `predict` row by row. -/
def pipeline_predict (clf : InferencePipeline) (X : List String) :
    Except String (List String) :=
  match transform clf X with
  | .error e => .error e
  | .ok xt => exMap clf.classifierPredict xt

/-- `NewsCategoryClassifier.predict_proba` (server.py lines 85-100): run
the pipeline on the one-element batch `[description]`, take row 0 and zip
the class labels with the probabilities into a dict. -/
def predict_proba (clf : InferencePipeline) (model_input : PredictRequest) :
    Except String (List (String × ℚ)) :=
  match pipeline_predict_proba clf [model_input.description] with
  | .error e => .error e
  | .ok rows =>
    match rows with
    | probs :: _ => .ok (pyDict (clf.classes_.zip probs))
    | [] => .error "IndexError"

/-- `NewsCategoryClassifier.predict_label` (server.py lines 102-112): run
the pipeline on the one-element batch `[description]` and take
prediction 0. -/
def predict_label (clf : InferencePipeline) (model_input : PredictRequest) :
    Except String String :=
  match pipeline_predict clf [model_input.description] with
  | .error e => .error e
  | .ok preds =>
    match preds with
    | p :: _ => .ok p
    | [] => .error "IndexError"

/-- A value stored in a log record: the handler logs a timestamp string,
the request dict, the response dict and a float latency. -/
inductive LogValue where
  | str : String → LogValue
  | req : PredictRequest → LogValue
  | resp : PredictResponse → LogValue
  | num : ℚ → LogValue
deriving DecidableEq, Repr

/-- One structured log record: a Python dict from field name to value. -/
abbrev LogData := List (String × LogValue)

/-- Per-request environment: the two `time.monotonic()` readings taken by
the handler (entry, and at `log_data` construction) and the
`datetime.now().strftime("%Y:%m:%d %H:%M:%S")` timestamp string. -/
structure RequestEnv where
  t0 : ℚ
  t1 : ℚ
  ts : String

/-- The `POST /predict` handler (server.py lines 144-171).  It computes
`scores` via `predict_proba`, then `label` via `predict_label` (the two
values of the `response_dict` literal, evaluated left to right), builds
the log record, appends it to the log sink and returns the response.  Any
exception raised by either inference call propagates (`.error`) before
the log line is written.  The log sink is threaded as the list of records
written so far. -/
def predict (clf : InferencePipeline) (env : RequestEnv) (log : List LogData)
    (request : PredictRequest) : Except String PredictResponse × List LogData :=
  match predict_proba clf request with
  | .error e => (.error e, log)
  | .ok scores =>
    match predict_label clf request with
    | .error e => (.error e, log)
    | .ok label =>
      let response_dict : PredictResponse := { scores := scores, label := label }
      let log_data : LogData :=
        [("timestamp", .str env.ts),
         ("request", .req request),
         ("prediction", .resp response_dict),
         ("latency", .num (1000 * (env.t1 - env.t0)))]
      (.ok response_dict, log ++ [log_data])

/-- A JSON value in a raw request body (only the shapes validation cares
about). -/
inductive JsonValue where
  | str : String → JsonValue
  | num : ℚ → JsonValue
  | null : JsonValue
deriving DecidableEq, Repr

/-- A raw JSON request body: a mapping from field name to value. -/
abbrev RawBody := List (String × JsonValue)

/-- Extract a string field, failing when the field is absent or not a
string. -/
def asStr : Option JsonValue → Option String
  | some (.str s) => some s
  | _ => none

/-- The required fields of `PredictRequest`, in declaration order. -/
def requiredFields : List String := ["source", "url", "title", "description"]

/-- Modelled from the spec: the FastAPI/pydantic validation layer for
`PredictRequest` is framework code not under `src/`.  Per the spec, a
malformed body (missing required field) is a request validation failure
rejected before reaching the pipeline, and the data model requires the
four string fields `source`, `url`, `title`, `description`. -/
def parsePredictRequest (body : RawBody) : Option PredictRequest :=
  match asStr (body.lookup "source"), asStr (body.lookup "url"),
        asStr (body.lookup "title"), asStr (body.lookup "description") with
  | some source, some url, some title, some description =>
    some { source := source, url := url, title := title, description := description }
  | _, _, _, _ => none

/-- Outcome of a raw HTTP call to `POST /predict`. -/
inductive HttpResult where
  | ok : PredictResponse → HttpResult
  | validationError : Nat → HttpResult
  | serverError : String → HttpResult
deriving DecidableEq, Repr

/-- Modelled from the spec: FastAPI dispatch for `POST /predict` is
framework code not under `src/`.  A body that fails validation is
rejected with a client error (422) before the handler — and hence the
pipeline — runs; a valid body is passed to the typed handler, whose
uncaught exception surfaces as a server error. -/
def handlePredictRaw (clf : InferencePipeline) (env : RequestEnv)
    (log : List LogData) (body : RawBody) : HttpResult × List LogData :=
  match parsePredictRequest body with
  | none => (.validationError 422, log)
  | some req =>
    match predict clf env log req with
    | (.ok resp, log') => (.ok resp, log')
    | (.error e, log') => (.serverError e, log')

/-- The `GET /` handler `read_root` (server.py lines 174-176): the literal
dict `{"Hello": "World"}`. -/
def read_root : List (String × String) := [("Hello", "World")]

/-- `GET /` dispatch: the handler takes no input and touches no state, so
the response is `read_root` and the process state (pipeline and log sink)
is untouched. -/
def handleRoot (_clf : InferencePipeline) (log : List LogData) :
    List (String × String) × List LogData :=
  (read_root, log)

/-- Modelled from the spec: the contract of the pretrained model artifact
(`data/news_classifier.joblib` plus the sentence-transformer weights),
which is opaque data not under `src/`.  The spec states that scores are
probabilities in 0–1 over the classifier's known label set summing to 1,
and that the predicted label is the argmax of the scores; sklearn's
fitted-classifier contract additionally makes `classes_` duplicate-free
with one probability per class.  The conditions constrain only successful
outputs, so a pipeline whose calls can raise still satisfies them. -/
structure ValidModel (clf : InferencePipeline) : Prop where
  classes_nodup : clf.classes_.Nodup
  proba_length : ∀ e probs, clf.classifierProba e = .ok probs →
    probs.length = clf.classes_.length
  proba_nonneg : ∀ e probs, clf.classifierProba e = .ok probs →
    ∀ p ∈ probs, 0 ≤ p
  proba_sum : ∀ e probs, clf.classifierProba e = .ok probs → probs.sum = 1
  predict_mem : ∀ e lbl, clf.classifierPredict e = .ok lbl → lbl ∈ clf.classes_
  predict_argmax : ∀ e probs lbl, clf.classifierProba e = .ok probs →
    clf.classifierPredict e = .ok lbl →
    ∃ p, (lbl, p) ∈ clf.classes_.zip probs ∧ ∀ q ∈ probs, q ≤ p

/-- Number of `SentenceTransformer.encode` invocations performed by
`TransformerFeaturizer.transform` on a batch: one per document, until the
first exception aborts the loop. -/
def transformEncodeCalls (clf : InferencePipeline) : List String → Nat
  | [] => 0
  | doc :: rest =>
    match clf.encode doc with
    | .error _ => 1
    | .ok _ => 1 + transformEncodeCalls clf rest

/-- Number of `encode` invocations performed by one call to
`NewsCategoryClassifier.predict_proba`: its pipeline run featurizes the
singleton batch `[description]`. -/
def predictProbaEncodeCalls (clf : InferencePipeline)
    (model_input : PredictRequest) : Nat :=
  transformEncodeCalls clf [model_input.description]

/-- Number of `encode` invocations performed by one call to
`NewsCategoryClassifier.predict_label`: its pipeline run also featurizes
the singleton batch `[description]`. -/
def predictLabelEncodeCalls (clf : InferencePipeline)
    (model_input : PredictRequest) : Nat :=
  transformEncodeCalls clf [model_input.description]

/-- Number of `encode` invocations performed by one `POST /predict`
request: the `predict_proba` call always runs; the `predict_label` call
runs only when `predict_proba` returned (its exception would abort the
handler first). -/
def predictEncodeCalls (clf : InferencePipeline) (request : PredictRequest) :
    Nat :=
  match predict_proba clf request with
  | .error _ => predictProbaEncodeCalls clf request
  | .ok _ => predictProbaEncodeCalls clf request + predictLabelEncodeCalls clf request

/-- A small concrete pipeline over two classes, used to instantiate the
theorems: every document encodes to `[1]`, the classifier puts all mass
on `BUSINESS`. -/
def demoClf : InferencePipeline where
  classes_ := ["BUSINESS", "SPORTS"]
  encode := fun _ => .ok [1]
  classifierProba := fun _ => .ok [1, 0]
  classifierPredict := fun _ => .ok "BUSINESS"

/-- A concrete per-request environment. -/
def demoEnv : RequestEnv where
  t0 := 0
  t1 := 0
  ts := "2022:01:01 00:00:00"

/-- A second concrete environment with different clock readings. -/
def demoEnv2 : RequestEnv where
  t0 := 2
  t1 := 3
  ts := "2022:01:01 00:00:01"

/-- The spec's example request. -/
def demoReq : PredictRequest where
  source := "bbc"
  url := "http://x"
  title := "t"
  description := "stocks rally amid earnings season"

/-- A request agreeing with `demoReq` on `description` only. -/
def demoReq2 : PredictRequest where
  source := "cnn"
  url := "http://y"
  title := "u"
  description := "stocks rally amid earnings season"

/-- The response `demoClf` produces on any request. -/
def demoResp : PredictResponse where
  scores := [("BUSINESS", 1), ("SPORTS", 0)]
  label := "BUSINESS"

/-- The log record written for `demoReq` under `demoEnv`. -/
def demoEntry : LogData :=
  [("timestamp", .str demoEnv.ts),
   ("request", .req demoReq),
   ("prediction", .resp demoResp),
   ("latency", .num (1000 * (demoEnv.t1 - demoEnv.t0)))]

/-- A well-formed raw body whose `description` is the empty string. -/
def demoBody : RawBody :=
  [("source", .str "bbc"), ("url", .str "http://x"),
   ("title", .str "t"), ("description", .str "")]

/-- The request `demoBody` parses to. -/
def demoParsed : PredictRequest where
  source := "bbc"
  url := "http://x"
  title := "t"
  description := ""

/-- A malformed raw body: the required `description` field is missing. -/
def demoBadBody : RawBody :=
  [("source", .str "bbc"), ("url", .str "http://x"), ("title", .str "t")]

/-- A second, very different concrete pipeline (it always raises), used
to show that rejected requests never consult the pipeline. -/
def demoClfAlt : InferencePipeline where
  classes_ := []
  encode := fun _ => .error "boom"
  classifierProba := fun _ => .error "boom"
  classifierPredict := fun _ => .error "boom"

/-! ## Helper lemmas -/

theorem dictInsert_eq_append {α : Type} {d : List (String × α)} {k : String}
    {v : α} (h : ∀ p ∈ d, p.1 ≠ k) : dictInsert d k v = d ++ [(k, v)] := by
  have hany : d.any (fun p => p.1 == k) = false := by
    rw [List.any_eq_false]
    intro p hp
    simpa using h p hp
  simp [dictInsert, hany]

theorem pyDict_go_eq {α : Type} (l : List (String × α)) :
    ∀ d : List (String × α), ((d ++ l).map Prod.fst).Nodup →
      l.foldl (fun d p => dictInsert d p.1 p.2) d = d ++ l := by
  induction l with
  | nil => intro d _; simp
  | cons p t ih =>
    intro d h
    have hne : ∀ q ∈ d, q.1 ≠ p.1 := by
      intro q hq hEq
      rw [List.map_append, List.nodup_append] at h
      exact h.2.2 (List.mem_map_of_mem Prod.fst hq) (by simp [hEq])
    rw [List.foldl_cons, dictInsert_eq_append hne]
    have := ih (d ++ [p]) (by simpa using h)
    simpa using this

theorem pyDict_eq_of_nodup {α : Type} (l : List (String × α))
    (h : (l.map Prod.fst).Nodup) : pyDict l = l := by
  simpa using pyDict_go_eq l [] (by simpa using h)

theorem predict_proba_ok {clf : InferencePipeline} {req : PredictRequest}
    {res : List (String × ℚ)} (h : predict_proba clf req = .ok res) :
    ∃ emb probs, clf.encode req.description = .ok emb ∧
      clf.classifierProba emb = .ok probs ∧
      res = pyDict (clf.classes_.zip probs) := by
  cases h1 : clf.encode req.description with
  | error e =>
    simp [predict_proba, pipeline_predict_proba, transform, exMap, h1] at h
  | ok emb =>
    cases h2 : clf.classifierProba emb with
    | error e =>
      simp [predict_proba, pipeline_predict_proba, transform, exMap, h1, h2] at h
    | ok probs =>
      refine ⟨emb, probs, rfl, h2, ?_⟩
      simp [predict_proba, pipeline_predict_proba, transform, exMap, h1, h2] at h
      exact h.symm

theorem predict_label_ok {clf : InferencePipeline} {req : PredictRequest}
    {lbl : String} (h : predict_label clf req = .ok lbl) :
    ∃ emb, clf.encode req.description = .ok emb ∧
      clf.classifierPredict emb = .ok lbl := by
  cases h1 : clf.encode req.description with
  | error e =>
    simp [predict_label, pipeline_predict, transform, exMap, h1] at h
  | ok emb =>
    cases h2 : clf.classifierPredict emb with
    | error e =>
      simp [predict_label, pipeline_predict, transform, exMap, h1, h2] at h
    | ok p =>
      refine ⟨emb, rfl, ?_⟩
      simp [predict_label, pipeline_predict, transform, exMap, h1, h2] at h
      exact h ▸ h2

theorem predict_proba_congr {clf : InferencePipeline} {r1 r2 : PredictRequest}
    (h : r1.description = r2.description) :
    predict_proba clf r1 = predict_proba clf r2 := by
  unfold predict_proba pipeline_predict_proba transform
  rw [h]

theorem predict_label_congr {clf : InferencePipeline} {r1 r2 : PredictRequest}
    (h : r1.description = r2.description) :
    predict_label clf r1 = predict_label clf r2 := by
  unfold predict_label pipeline_predict transform
  rw [h]

theorem predict_ok {clf : InferencePipeline} {env : RequestEnv}
    {log : List LogData} {req : PredictRequest} {resp : PredictResponse}
    {log' : List LogData} (h : predict clf env log req = (.ok resp, log')) :
    predict_proba clf req = .ok resp.scores ∧
    predict_label clf req = .ok resp.label ∧
    log' = log ++ [[("timestamp", LogValue.str env.ts),
      ("request", LogValue.req req), ("prediction", LogValue.resp resp),
      ("latency", LogValue.num (1000 * (env.t1 - env.t0)))]] := by
  obtain ⟨rs, rl⟩ := resp
  cases h1 : predict_proba clf req with
  | error e => simp [predict, h1] at h
  | ok scores =>
    cases h2 : predict_label clf req with
    | error e => simp [predict, h1, h2] at h
    | ok label =>
      simp [predict, h1, h2, Prod.ext_iff, PredictResponse.mk.injEq] at h
      obtain ⟨⟨ha, hb⟩, hlog⟩ := h
      subst ha
      subst hb
      exact ⟨rfl, rfl, hlog.symm⟩

theorem demo_predict_eq :
    predict demoClf demoEnv [] demoReq = (.ok demoResp, [demoEntry]) := rfl

theorem demo_predict_eq2 :
    predict demoClf demoEnv2 [] demoReq2 =
      (.ok demoResp,
       [[("timestamp", LogValue.str demoEnv2.ts),
         ("request", LogValue.req demoReq2),
         ("prediction", LogValue.resp demoResp),
         ("latency", LogValue.num (1000 * (demoEnv2.t1 - demoEnv2.t0)))]]) := rfl

theorem demoValidModel : ValidModel demoClf := by
  constructor
  · decide
  · intro e probs h
    obtain rfl : ([1, 0] : List ℚ) = probs := by
      simpa [demoClf] using h
    rfl
  · intro e probs h
    obtain rfl : ([1, 0] : List ℚ) = probs := by
      simpa [demoClf] using h
    intro p hp
    simp at hp
    rcases hp with rfl | rfl <;> norm_num
  · intro e probs h
    obtain rfl : ([1, 0] : List ℚ) = probs := by
      simpa [demoClf] using h
    norm_num
  · intro e lbl h
    obtain rfl : "BUSINESS" = lbl := by
      simpa [demoClf] using h
    simp [demoClf]
  · intro e probs lbl h1 h2
    obtain rfl : ([1, 0] : List ℚ) = probs := by
      simpa [demoClf] using h1
    obtain rfl : "BUSINESS" = lbl := by
      simpa [demoClf] using h2
    refine ⟨1, by simp [demoClf, List.zip], ?_⟩
    intro q hq
    simp at hq
    rcases hq with rfl | rfl <;> norm_num

/-! ## Claim theorems -/

/-- C1: for every valid `POST /predict` request served by a pipeline
satisfying the model contract, the returned `response.label` is a member
of the classifier's known label set, the keys of `response.scores` are
exactly that label set, and the score values sum to 1 (exactly, in ℚ). -/
theorem predict_response_wellformed (clf : InferencePipeline)
    (hm : ValidModel clf) (env : RequestEnv) (log : List LogData)
    (req : PredictRequest) (resp : PredictResponse) (log' : List LogData)
    (h : predict clf env log req = (.ok resp, log')) :
    resp.label ∈ clf.classes_ ∧
    resp.scores.map Prod.fst = clf.classes_ ∧
    (resp.scores.map Prod.snd).sum = 1 := by
  obtain ⟨hp, hl, -⟩ := predict_ok h
  obtain ⟨emb, probs, he, hcp, hs⟩ := predict_proba_ok hp
  obtain ⟨emb', he', hcpred⟩ := predict_label_ok hl
  obtain rfl : emb = emb' := by
    have := he.symm.trans he'
    injection this
  have hlen : probs.length = clf.classes_.length := hm.proba_length _ _ hcp
  have hkeys : (clf.classes_.zip probs).map Prod.fst = clf.classes_ :=
    List.map_fst_zip _ _ hlen.symm.le
  have hz : pyDict (clf.classes_.zip probs) = clf.classes_.zip probs :=
    pyDict_eq_of_nodup _ (by rw [hkeys]; exact hm.classes_nodup)
  refine ⟨hm.predict_mem _ _ hcpred, ?_, ?_⟩
  · rw [hs, hz, hkeys]
  · rw [hs, hz, List.map_snd_zip _ _ hlen.le]
    exact hm.proba_sum _ _ hcp

/-- Witness for C1 at the demo pipeline and the spec's example request. -/
theorem predict_response_wellformed_witness :
    demoResp.label ∈ demoClf.classes_ ∧
    demoResp.scores.map Prod.fst = demoClf.classes_ ∧
    (demoResp.scores.map Prod.snd).sum = 1 :=
  predict_response_wellformed demoClf demoValidModel demoEnv [] demoReq
    demoResp [demoEntry] rfl

/-- C2: for every valid `POST /predict` request served by a pipeline
satisfying the model contract, the returned `response.label` attains the
maximal probability in the returned `response.scores` mapping. -/
theorem predict_label_is_argmax (clf : InferencePipeline)
    (hm : ValidModel clf) (env : RequestEnv) (log : List LogData)
    (req : PredictRequest) (resp : PredictResponse) (log' : List LogData)
    (h : predict clf env log req = (.ok resp, log')) :
    ∃ p, (resp.label, p) ∈ resp.scores ∧ ∀ q ∈ resp.scores, q.2 ≤ p := by
  obtain ⟨hp, hl, -⟩ := predict_ok h
  obtain ⟨emb, probs, he, hcp, hs⟩ := predict_proba_ok hp
  obtain ⟨emb', he', hcpred⟩ := predict_label_ok hl
  obtain rfl : emb = emb' := by
    have := he.symm.trans he'
    injection this
  obtain ⟨p, hmem, hmax⟩ := hm.predict_argmax emb probs resp.label hcp hcpred
  have hlen : probs.length = clf.classes_.length := hm.proba_length _ _ hcp
  have hkeys : (clf.classes_.zip probs).map Prod.fst = clf.classes_ :=
    List.map_fst_zip _ _ hlen.symm.le
  have hz : pyDict (clf.classes_.zip probs) = clf.classes_.zip probs :=
    pyDict_eq_of_nodup _ (by rw [hkeys]; exact hm.classes_nodup)
  refine ⟨p, ?_, ?_⟩
  · rw [hs, hz]
    exact hmem
  · intro q hq
    rw [hs, hz] at hq
    have hq' : (q.1, q.2) ∈ clf.classes_.zip probs := by simpa using hq
    exact hmax _ (List.of_mem_zip hq').2

/-- Witness for C2 at the demo pipeline and the spec's example request. -/
theorem predict_label_is_argmax_witness :
    ∃ p, (demoResp.label, p) ∈ demoResp.scores ∧
      ∀ q ∈ demoResp.scores, q.2 ≤ p :=
  predict_label_is_argmax demoClf demoValidModel demoEnv [] demoReq
    demoResp [demoEntry] rfl

/-- C3 counterexample: a successful `POST /predict` call — it returns a
response and appends exactly one log record — whose log record has the
field keys `timestamp`, `request`, `prediction`, `latency`; no
`latency_ms` field exists, contrary to the claim's stated field set. -/
theorem predict_log_no_latency_ms_field :
    (predict demoClf demoEnv [] demoReq).1 = .ok demoResp ∧
    (predict demoClf demoEnv [] demoReq).2 = [demoEntry] ∧
    demoEntry.map Prod.fst = ["timestamp", "request", "prediction", "latency"] ∧
    "latency_ms" ∉ demoEntry.map Prod.fst := by
  refine ⟨rfl, rfl, rfl, ?_⟩
  decide

/-- C3 (amended): every successful `POST /predict` call appends exactly
one log record, whose fields are `timestamp` (a string), `request`,
`prediction` and `latency` (not `latency_ms`), whose request and
prediction fields equal the request served and the response returned,
and whose latency value (milliseconds between the two monotonic-clock
readings) is non-negative. -/
theorem predict_appends_one_log_record (clf : InferencePipeline)
    (env : RequestEnv) (log : List LogData) (req : PredictRequest)
    (resp : PredictResponse) (log' : List LogData)
    (hmono : env.t0 ≤ env.t1)
    (h : predict clf env log req = (.ok resp, log')) :
    ∃ lat : ℚ, 0 ≤ lat ∧
      log' = log ++ [[("timestamp", LogValue.str env.ts),
        ("request", LogValue.req req), ("prediction", LogValue.resp resp),
        ("latency", LogValue.num lat)]] := by
  obtain ⟨-, -, hlog⟩ := predict_ok h
  exact ⟨1000 * (env.t1 - env.t0),
    mul_nonneg (by norm_num) (sub_nonneg.mpr hmono), hlog⟩

/-- Witness for the amended C3 at the demo pipeline. -/
theorem predict_appends_one_log_record_witness :
    ∃ lat : ℚ, 0 ≤ lat ∧
      ([demoEntry] : List LogData) =
        [] ++ [[("timestamp", LogValue.str demoEnv.ts),
          ("request", LogValue.req demoReq),
          ("prediction", LogValue.resp demoResp),
          ("latency", LogValue.num lat)]] :=
  predict_appends_one_log_record demoClf demoEnv [] demoReq demoResp
    [demoEntry] (by norm_num [demoEnv]) rfl

/-- C4: with a fixed pipeline, any two `POST /predict` calls whose
requests agree on `description` — whatever the clock readings, timestamp
and log state — return identical scores mappings and identical labels. -/
theorem predict_deterministic (clf : InferencePipeline)
    (env1 env2 : RequestEnv) (log1 log2 : List LogData)
    (req1 req2 : PredictRequest) (resp1 resp2 : PredictResponse)
    (l1 l2 : List LogData)
    (hd : req1.description = req2.description)
    (h1 : predict clf env1 log1 req1 = (.ok resp1, l1))
    (h2 : predict clf env2 log2 req2 = (.ok resp2, l2)) :
    resp1.scores = resp2.scores ∧ resp1.label = resp2.label := by
  obtain ⟨hp1, hl1, -⟩ := predict_ok h1
  obtain ⟨hp2, hl2, -⟩ := predict_ok h2
  rw [@predict_proba_congr clf _ _ hd] at hp1
  rw [@predict_label_congr clf _ _ hd] at hl1
  exact ⟨Except.ok.inj (hp1.symm.trans hp2), Except.ok.inj (hl1.symm.trans hl2)⟩

/-- Witness for C4: two calls under different clock readings, log states
and non-description fields. -/
theorem predict_deterministic_witness :
    demoResp.scores = demoResp.scores ∧ demoResp.label = demoResp.label :=
  predict_deterministic demoClf demoEnv demoEnv2 [] [demoEntry] demoReq
    demoReq2 demoResp demoResp [demoEntry]
    ([demoEntry] ++ [[("timestamp", LogValue.str demoEnv2.ts),
      ("request", LogValue.req demoReq2),
      ("prediction", LogValue.resp demoResp),
      ("latency", LogValue.num (1000 * (demoEnv2.t1 - demoEnv2.t0)))]])
    rfl rfl rfl

/-- C5: a request and its variant with arbitrarily different `source`,
`url` and `title` (but the same `description`) receive the same response
— same scores and same label — whatever the environment and log state. -/
theorem predict_ignores_non_description_fields (clf : InferencePipeline)
    (env env' : RequestEnv) (log log' : List LogData) (req : PredictRequest)
    (s u t : String) :
    (predict clf env log { req with source := s, url := u, title := t }).1 =
      (predict clf env' log' req).1 := by
  have hd : ({ req with source := s, url := u, title := t } :
      PredictRequest).description = req.description := rfl
  have hpp := @predict_proba_congr clf _ _ hd
  have hpl := @predict_label_congr clf _ _ hd
  simp only [predict, hpp, hpl]
  cases predict_proba clf req <;> cases predict_label clf req <;> rfl

theorem parse_none_of_missing {body : RawBody} {f : String}
    (hf : f ∈ requiredFields) (hmiss : body.lookup f = none) :
    parsePredictRequest body = none := by
  have hf' : f = "source" ∨ f = "url" ∨ f = "title" ∨ f = "description" := by
    simpa [requiredFields] using hf
  cases hs : asStr (body.lookup "source") <;>
    cases hu : asStr (body.lookup "url") <;>
      cases ht : asStr (body.lookup "title") <;>
        cases hde : asStr (body.lookup "description") <;>
          simp [parsePredictRequest, hs, hu, ht, hde]
  rcases hf' with rfl | rfl | rfl | rfl
  · rw [hmiss] at hs; simp [asStr] at hs
  · rw [hmiss] at hu; simp [asStr] at hu
  · rw [hmiss] at ht; simp [asStr] at ht
  · rw [hmiss] at hde; simp [asStr] at hde

/-- C6: a `POST /predict` body missing a required field is rejected by
validation: the raw handler returns a 422 client error, the log is
unchanged, and the pipeline is never consulted — the outcome is identical
under any other pipeline. -/
theorem handlePredictRaw_missing_field (clf clf' : InferencePipeline)
    (env : RequestEnv) (log : List LogData) (body : RawBody) (f : String)
    (hf : f ∈ requiredFields) (hmiss : body.lookup f = none) :
    handlePredictRaw clf env log body = (.validationError 422, log) ∧
    handlePredictRaw clf env log body = handlePredictRaw clf' env log body := by
  have hp := parse_none_of_missing hf hmiss
  constructor <;> simp [handlePredictRaw, hp]

/-- Witness for C6: a body without a `description` field is rejected,
even when judged against a pipeline that always raises. -/
theorem handlePredictRaw_missing_field_witness :
    handlePredictRaw demoClf demoEnv [] demoBadBody =
      (.validationError 422, []) ∧
    handlePredictRaw demoClf demoEnv [] demoBadBody =
      handlePredictRaw demoClfAlt demoEnv [] demoBadBody :=
  handlePredictRaw_missing_field demoClf demoClfAlt demoEnv [] demoBadBody
    "description" (by simp [requiredFields]) rfl

/-- C7: every `POST /predict` request either fully succeeds — a response
is returned and exactly one log record is appended — or fails entirely:
the first inference-time exception propagates uncaught out of the handler
and neither a response nor a log record is produced. -/
theorem predict_atomic (clf : InferencePipeline) (env : RequestEnv)
    (log : List LogData) (req : PredictRequest) :
    (∃ resp entry, predict clf env log req = (.ok resp, log ++ [entry])) ∨
    (∃ e, (predict_proba clf req = .error e ∨ predict_label clf req = .error e) ∧
      predict clf env log req = (.error e, log)) := by
  cases hp : predict_proba clf req with
  | error e => exact .inr ⟨e, .inl rfl, by simp [predict, hp]⟩
  | ok scores =>
    cases hl : predict_label clf req with
    | error e => exact .inr ⟨e, .inr rfl, by simp [predict, hp, hl]⟩
    | ok label =>
      refine .inl ⟨⟨scores, label⟩,
        [("timestamp", LogValue.str env.ts), ("request", LogValue.req req),
         ("prediction", LogValue.resp ⟨scores, label⟩),
         ("latency", LogValue.num (1000 * (env.t1 - env.t0)))], ?_⟩
      simp [predict, hp, hl]

/-- C8: `GET /` returns exactly `{"Hello": "World"}` in every process
state — whatever the pipeline and the log contents — and leaves the
state unchanged. -/
theorem read_root_const (clf : InferencePipeline) (log : List LogData) :
    handleRoot clf log = ([("Hello", "World")], log) := rfl

/-- C9: on every successful `POST /predict` request the handler runs the
inference pipeline twice: the description is encoded exactly twice (once
inside `predict_proba`, once inside `predict_label`); the returned label
is exactly the output of the separate `predict_label` invocation; and the
label does not come from the scores mapping — any pipeline differing only
in `classifierProba` that also succeeds returns the same label. -/
theorem predict_invokes_pipeline_twice (clf : InferencePipeline)
    (env : RequestEnv) (log : List LogData) (req : PredictRequest)
    (resp : PredictResponse) (log' : List LogData)
    (h : predict clf env log req = (.ok resp, log')) :
    predictEncodeCalls clf req = 2 ∧
    predict_label clf req = .ok resp.label ∧
    (∀ g resp' log'', predict { clf with classifierProba := g } env log req =
      (.ok resp', log'') → resp'.label = resp.label) := by
  obtain ⟨hp, hl, -⟩ := predict_ok h
  obtain ⟨emb, probs, he, hcp, -⟩ := predict_proba_ok hp
  refine ⟨?_, hl, ?_⟩
  · simp [predictEncodeCalls, hp, predictProbaEncodeCalls,
      predictLabelEncodeCalls, transformEncodeCalls, he]
  · intro g resp' log'' h'
    obtain ⟨-, hl', -⟩ := predict_ok h'
    have heq : predict_label { clf with classifierProba := g } req =
        predict_label clf req := rfl
    rw [heq, hl] at hl'
    exact (Except.ok.inj hl').symm

/-- Witness for C9 at the demo pipeline. -/
theorem predict_invokes_pipeline_twice_witness :
    predictEncodeCalls demoClf demoReq = 2 ∧
    predict_label demoClf demoReq = .ok demoResp.label :=
  ⟨(predict_invokes_pipeline_twice demoClf demoEnv [] demoReq demoResp
      [demoEntry] rfl).1,
   (predict_invokes_pipeline_twice demoClf demoEnv [] demoReq demoResp
      [demoEntry] rfl).2.1⟩

/-- C10: a body whose four required fields are present as strings — with
any content, including the empty string — passes validation, and the
parsed request reaches the pipeline handler, whose outcome the raw
endpoint returns; conversely, validation fails only when some required
field is absent or not a string, never because of string content. -/
theorem validation_content_independent (clf : InferencePipeline)
    (env : RequestEnv) (log : List LogData) (body : RawBody) :
    ((∀ f ∈ requiredFields, ∃ s, asStr (body.lookup f) = some s) →
      ∃ req, parsePredictRequest body = some req ∧
        (∀ resp log1, predict clf env log req = (.ok resp, log1) →
          handlePredictRaw clf env log body = (.ok resp, log1)) ∧
        (∀ e log1, predict clf env log req = (.error e, log1) →
          handlePredictRaw clf env log body = (.serverError e, log1))) ∧
    (parsePredictRequest body = none →
      ∃ f ∈ requiredFields, asStr (body.lookup f) = none) := by
  constructor
  · intro hall
    obtain ⟨s, hs⟩ := hall "source" (by simp [requiredFields])
    obtain ⟨u, hu⟩ := hall "url" (by simp [requiredFields])
    obtain ⟨t, ht⟩ := hall "title" (by simp [requiredFields])
    obtain ⟨d, hde⟩ := hall "description" (by simp [requiredFields])
    have hparse : parsePredictRequest body = some ⟨s, u, t, d⟩ := by
      simp [parsePredictRequest, hs, hu, ht, hde]
    refine ⟨⟨s, u, t, d⟩, hparse, ?_, ?_⟩
    · intro resp log1 hpred
      simp [handlePredictRaw, hparse, hpred]
    · intro e log1 hpred
      simp [handlePredictRaw, hparse, hpred]
  · intro hnone
    by_contra hcon
    push_neg at hcon
    obtain ⟨s, hs⟩ := Option.ne_none_iff_exists'.mp
      (hcon "source" (by simp [requiredFields]))
    obtain ⟨u, hu⟩ := Option.ne_none_iff_exists'.mp
      (hcon "url" (by simp [requiredFields]))
    obtain ⟨t, ht⟩ := Option.ne_none_iff_exists'.mp
      (hcon "title" (by simp [requiredFields]))
    obtain ⟨d, hde⟩ := Option.ne_none_iff_exists'.mp
      (hcon "description" (by simp [requiredFields]))
    rw [parsePredictRequest] at hnone
    simp [hs, hu, ht, hde] at hnone

/-- Witness for C10: the body with an empty `description` string passes
validation and its parsed request is served by the pipeline. -/
theorem validation_content_independent_witness :
    ∃ req, parsePredictRequest demoBody = some req ∧
      (∀ resp log1, predict demoClf demoEnv [] req = (.ok resp, log1) →
        handlePredictRaw demoClf demoEnv [] demoBody = (.ok resp, log1)) ∧
      (∀ e log1, predict demoClf demoEnv [] req = (.error e, log1) →
        handlePredictRaw demoClf demoEnv [] demoBody = (.serverError e, log1)) :=
  (validation_content_independent demoClf demoEnv [] demoBody).1
    (by
      intro f hf
      simp only [requiredFields, List.mem_cons, List.not_mem_nil, or_false] at hf
      rcases hf with rfl | rfl | rfl | rfl <;> exact ⟨_, rfl⟩)

end NewsService
